import Mathlib

/-!
Verification of the "whois" nameplate-overlay core: a shallow embedding of
the snapshot producer (`UpdateSnapshot_GameThread`), the single-flight
update scheduler (`QueueSnapshotUpdate_RenderThread`), the presentation
cache (`ActorCache`, `DrawLabel`, `PruneCacheToSnapshot`, `Renderer::Draw`)
and the occlusion classifier (`Occlusion::IsActorOccluded`), together with
proofs of the specified properties.  Machine floats are modelled by exact
reals; `uint32_t` frame arithmetic is modelled by `Nat` with explicit
wrap-around subtraction.
-/

namespace Whois

/-! ### Constants (RenderConstants.h, Occlusion.h) -/

def kMaxActors : Nat := 16
def kMaxScan : Nat := 32
def kCacheGraceFrames : Nat := 60
def kPositionHistorySize : Nat := 8
def kReentryThreshold : Nat := 30
noncomputable def kSmoothingEpsilon : ℝ := 0.01
noncomputable def kMinSettleTime : ℝ := 1e-5
noncomputable def kLargeMovementThreshold : ℝ := 50.0
noncomputable def kLargeMovementBlend : ℝ := 0.5
noncomputable def kCloseDistanceThreshold : ℝ := 100.0
noncomputable def kBehindCameraDotThreshold : ℝ := -0.2

/-- `uint32_t` subtraction `a - b` on values `< 2^32`, with wrap-around. -/
def sub32 (a b : Nat) : Nat := (a + 2 ^ 32 - b) % 2 ^ 32

/-- `std::clamp(v, lo, hi)` (for `lo ≤ hi`). -/
noncomputable def clampR (v lo hi : ℝ) : ℝ := max lo (min v hi)

/-- `TextEffects::Saturate`: clamp to `[0,1]`. -/
noncomputable def Saturate (x : ℝ) : ℝ := clampR x 0 1

/-- `TextEffects::SmoothStep`: quintic smooth step of the saturated argument. -/
noncomputable def SmoothStep (t0 : ℝ) : ℝ :=
  let t := Saturate t0
  t * t * t * (t * (t * 6 - 15) + 10)

/-- `Renderer::ExpApproachAlpha` (RenderConstants.h:816-821): blend factor for
frame-rate independent exponential smoothing, with the non-negative `dt`
clamp, the `1e-5` minimum settle time, and the final clamp into `[0,1]`. -/
noncomputable def ExpApproachAlpha (dt settleTime epsilon : ℝ) : ℝ :=
  clampR (1 - epsilon ^ (max 0 dt / max (1e-5) settleTime)) 0 1

/-- One exponential-smoothing step as applied in `DrawLabel`
(`smoothed += (target - smoothed) * ExpApproachAlpha(dt, T)`,
default `epsilon = 0.01`). -/
noncomputable def expSmoothStep (dt settleTime target old : ℝ) : ℝ :=
  old + (target - old) * ExpApproachAlpha dt settleTime 0.01

/-- Iterating the smoothing step over a sequence of frame deltas. -/
noncomputable def expSmoothRun (settleTime target init : ℝ) (dts : List ℝ) : ℝ :=
  dts.foldl (fun v d => expSmoothStep d settleTime target v) init

/-! ### Update scheduler (`QueueSnapshotUpdate_RenderThread`) -/

/-- One call of `QueueSnapshotUpdate_RenderThread` on the single-flight flag
`s_updateQueued`.  `taskAvail` models `SKSE::GetTaskInterface()` being
non-null.  Returns the new flag value and the number of Producer
invocations scheduled by this call (0 or 1). -/
def requestStep (queued taskAvail : Bool) : Bool × Nat :=
  if queued then (true, 0)
  else if taskAvail then (true, 1)
  else (false, 0)

/-- A sequence of `QueueSnapshotUpdate_RenderThread` calls with no intervening
Producer completion; returns the final flag and the total number of
Producer invocations scheduled. -/
def runRequests (queued : Bool) (tas : List Bool) : Bool × Nat :=
  tas.foldl (fun acc ta =>
    let r := requestStep acc.1 ta
    (r.1, acc.2 + r.2)) (queued, 0)

/-! ### Data model -/

/-- Actor disposition for nameplate colors (`Renderer::Disposition`). -/
inductive Disposition where
  | Neutral
  | Enemy
  | AllyOrFriend
deriving DecidableEq, Repr

/-- A 3D world point (`RE::NiPoint3`), modelled over exact reals. -/
structure Vec3 where
  x : ℝ
  y : ℝ
  z : ℝ

noncomputable def Vec3.sub (a b : Vec3) : Vec3 := ⟨a.x - b.x, a.y - b.y, a.z - b.z⟩

noncomputable def Vec3.dot (a b : Vec3) : ℝ := a.x * b.x + a.y * b.y + a.z * b.z

/-- `NiPoint3::Length`. -/
noncomputable def Vec3.length (v : Vec3) : ℝ :=
  Real.sqrt (v.x * v.x + v.y * v.y + v.z * v.z)

/-- `NiPoint3::GetSquaredDistance`. -/
noncomputable def sqDist (a b : Vec3) : ℝ :=
  (a.x - b.x) * (a.x - b.x) + (a.y - b.y) * (a.y - b.y) + (a.z - b.z) * (a.z - b.z)

/-- Componentwise division by a scalar (normalisation step in `IsBehindCamera`). -/
noncomputable def Vec3.scaleInv (v : Vec3) (d : ℝ) : Vec3 := ⟨v.x / d, v.y / d, v.z / d⟩

/-- Runtime-configurable values read by the pipeline (`Settings`). -/
structure Settings where
  FadeStartDistance : ℝ
  FadeEndDistance : ℝ
  ScaleStartDistance : ℝ
  ScaleEndDistance : ℝ
  MinimumScale : ℝ
  MaxScanDistance : ℝ
  EnableOcclusionCulling : Bool
  OcclusionSettleTime : ℝ
  OcclusionCheckInterval : Nat
  EnableTypewriter : Bool
  VerticalOffset : ℝ
  HidePlayer : Bool
  AlphaSettleTime : ℝ
  ScaleSettleTime : ℝ
  PositionSettleTime : ℝ

/-- Data for rendering a single actor's nameplate (`Renderer::ActorDrawData`). -/
structure ActorDrawData where
  formID : Nat
  worldPos : Vec3
  name : String
  level : Nat
  distToPlayer : ℝ
  dispo : Disposition
  isPlayer : Bool
  isOccluded : Bool

/-- Per-identity smoothing/caching state (`Renderer::ActorCache`), with its
C++ default member initializers. -/
structure ActorCache where
  smooth : ℝ × ℝ := (0, 0)
  alphaSmooth : ℝ := 1
  textSizeScale : ℝ := 1
  occlusionSmooth : ℝ := 1
  initialized : Bool := false
  lastSeenFrame : Nat := 0
  lastOcclusionCheckFrame : Nat := 0
  cachedOccluded : Bool := false
  wasOccluded : Bool := false
  posHistory : List (ℝ × ℝ) := List.replicate kPositionHistorySize (0, 0)
  historyIndex : Nat := 0
  historyFilled : Bool := false
  typewriterTime : ℝ := 0
  typewriterComplete : Bool := false
  cachedName : String := ""

/-- The presentation cache `s_cache`, modelled as an association list keyed by
form ID. -/
abbrev CacheMap := List (Nat × ActorCache)

def lookupCache (c : CacheMap) (k : Nat) : Option ActorCache :=
  (c.find? (fun p => p.1 == k)).map Prod.snd

/-- Store an entry under a key: replace the existing entry or append a new one
(`std::unordered_map` emplace plus in-place mutation through the iterator). -/
def storeCache (c : CacheMap) (k : Nat) (e : ActorCache) : CacheMap :=
  if c.any (fun p => p.1 == k) then
    c.map (fun p => if p.1 == k then (k, e) else p)
  else c ++ [(k, e)]

/-- `ActorCache::AddAndGetSmoothed`: push a raw position sample into the
circular history buffer and return the moving average, together with the
mutated entry. -/
noncomputable def AddAndGetSmoothed (e : ActorCache) (pos : ℝ × ℝ) :
    (ℝ × ℝ) × ActorCache :=
  let hist := e.posHistory.set e.historyIndex pos
  let idx := (e.historyIndex + 1) % kPositionHistorySize
  let filled := if idx = 0 then true else e.historyFilled
  let e' := { e with posHistory := hist, historyIndex := idx, historyFilled := filled }
  let count := if filled then kPositionHistorySize else idx
  if count = 0 then (pos, e')
  else
    let sx := ((hist.take count).map Prod.fst).sum
    let sy := ((hist.take count).map Prod.snd).sum
    ((sx / count, sy / count), e')

/-! ### World snapshot producer (`UpdateSnapshot_GameThread`) -/

/-- The whitespace set used by `Renderer::Capitalize`'s trim (`" \t\r\n"`). -/
def isTrimSpace (c : Char) : Bool :=
  c = ' ' ∨ c = '\t' ∨ c = '\r' ∨ c = '\n'

/-- `isspace` in the C locale. -/
def isSpaceC (c : Char) : Bool :=
  c = ' ' ∨ c = '\t' ∨ c = '\n' ∨ c = '\x0b' ∨ c = '\x0c' ∨ c = '\r'

def titleCase : Bool → List Char → List Char
  | _, [] => []
  | newWord, c :: rest =>
    if isSpaceC c then c :: titleCase true rest
    else if newWord then c.toUpper :: titleCase false rest
    else c :: titleCase false rest

/-- `Renderer::Capitalize`: trim leading/trailing whitespace, then title-case
each word (ASCII upcasing, as `toupper` in the C locale). -/
def Capitalize (text : String) : String :=
  let cs := text.toList.dropWhile isTrimSpace
  let cs := (cs.reverse.dropWhile isTrimSpace).reverse
  String.mk (titleCase true cs)

/-- The player character as read by the producer (`RE::PlayerCharacter`). -/
structure PlayerInfo where
  formID : Nat
  level : Nat
  displayName : Option String
  position : Vec3
  height : ℝ

/-- A resolved entry of `pl->highActorHandles`, carrying the host-engine query
results the producer reads for that actor.  `dispo` abstracts
`GetDisposition(a, player)` and `freshOccluded` abstracts the result
`Occlusion::IsActorOccluded` would return this frame (the geometric
classifier itself is modelled separately below). -/
structure ActorInfo where
  formID : Nat
  isPlayerRef : Bool
  isDead : Bool
  position : Vec3
  height : ℝ
  displayName : Option String
  level : Nat
  dispo : Disposition
  freshOccluded : Bool

/-- The throttled occlusion check embedded in the producer
(RenderConstants.h:714-745): reuse the cached result when the entry exists,
is initialized, and was checked fewer than `OcclusionCheckInterval` frames
ago; otherwise take a fresh result and write it back into an existing
entry. -/
def occlusionFor (s : Settings) (frame : Nat) (a : ActorInfo) (cache : CacheMap) :
    Bool × CacheMap :=
  if s.EnableOcclusionCulling then
    match lookupCache cache a.formID with
    | some e =>
      if e.initialized ∧ sub32 frame e.lastOcclusionCheckFrame < s.OcclusionCheckInterval then
        (e.cachedOccluded, cache)
      else
        (a.freshOccluded,
          cache.map (fun p =>
            if p.1 == a.formID then
              (p.1, { p.2 with lastOcclusionCheckFrame := frame,
                               cachedOccluded := a.freshOccluded })
            else p))
    | none => (a.freshOccluded, cache)
  else (false, cache)

/-- The draw record the producer builds for a surviving NPC candidate. -/
noncomputable def npcRecord (s : Settings) (a : ActorInfo) (distSq : ℝ) (occ : Bool) :
    ActorDrawData where
  formID := a.formID
  worldPos := { a.position with z := a.position.z + a.height + s.VerticalOffset }
  name := match a.displayName with
    | some n => Capitalize n
    | none => ""
  level := a.level
  distToPlayer := Real.sqrt distSq
  dispo := a.dispo
  isPlayer := false
  isOccluded := occ

/-- The player's own record, pushed first when `HidePlayer` is off. -/
noncomputable def playerRecord (s : Settings) (p : PlayerInfo) : ActorDrawData where
  formID := p.formID
  worldPos := { p.position with z := p.position.z + p.height + s.VerticalOffset }
  name := match p.displayName with
    | some n => Capitalize n
    | none => "Player"
  level := p.level
  distToPlayer := 0
  dispo := Disposition.Neutral
  isPlayer := true
  isOccluded := false

/-- The candidate scan of `UpdateSnapshot_GameThread`
(RenderConstants.h:657-749): for each handle, stop when `added >= kMaxActors`
or `scanned++ >= kMaxScan`; skip null handles, the player itself, dead
actors and actors beyond the squared scan radius; otherwise run the
throttled occlusion check and append a record. -/
noncomputable def scanLoop (s : Settings) (frame : Nat) (playerPos : Vec3) (maxDistSq : ℝ) :
    List (Option ActorInfo) → Nat → Nat → List ActorDrawData → CacheMap →
    List ActorDrawData × CacheMap
  | [], _, _, buf, cache => (buf, cache)
  | h :: rest, added, scanned, buf, cache =>
    if kMaxActors ≤ added then (buf, cache)
    else if kMaxScan ≤ scanned then (buf, cache)
    else
      match h with
      | none => scanLoop s frame playerPos maxDistSq rest added (scanned + 1) buf cache
      | some a =>
        if a.isPlayerRef then
          scanLoop s frame playerPos maxDistSq rest added (scanned + 1) buf cache
        else if a.isDead then
          scanLoop s frame playerPos maxDistSq rest added (scanned + 1) buf cache
        else
          let distSq := sqDist playerPos a.position
          if maxDistSq < distSq then
            scanLoop s frame playerPos maxDistSq rest added (scanned + 1) buf cache
          else
            let oc := occlusionFor s frame a cache
            scanLoop s frame playerPos maxDistSq rest (added + 1) (scanned + 1)
              (buf ++ [npcRecord s a distSq oc.1]) oc.2

/-- What the producer reads from its environment on one invocation. -/
structure ProducerEnv where
  canDrawOverlay : Bool
  player : Option PlayerInfo
  processLists : Option (List (Option ActorInfo))
  s : Settings
  frame : Nat

/-- The global renderer state the producer touches: the single-flight flag
`s_updateQueued`, `s_allowOverlay`, the published snapshot `s_snapshot`
and the cache `s_cache`. -/
structure RState where
  queued : Bool
  allowOverlay : Bool
  snapshot : List ActorDrawData
  cache : CacheMap

/-- `Renderer::UpdateSnapshot_GameThread` (RenderConstants.h:582-757).  The
`ClearFlag` RAII guard is modelled by every result having `queued := false`:
each early return and the normal exit clear the flag. -/
noncomputable def UpdateSnapshot_GameThread (env : ProducerEnv) (st : RState) : RState :=
  if ¬env.canDrawOverlay then
    { st with queued := false, allowOverlay := false, snapshot := [] }
  else
    match env.player, env.processLists with
    | some player, some handles =>
      let maxDistSq := env.s.MaxScanDistance * env.s.MaxScanDistance
      let buf0 := if ¬env.s.HidePlayer then [playerRecord env.s player] else []
      let r := scanLoop env.s env.frame player.position maxDistSq handles 1 0 buf0 st.cache
      { st with queued := false, allowOverlay := true, snapshot := r.1, cache := r.2 }
    | _, _ => { st with queued := false, allowOverlay := true, snapshot := [] }

/-! ### Occlusion subsystem (Occlusion.cpp) -/

noncomputable def Vec3.normalize (v : Vec3) : Vec3 := v.scaleInv v.length

/-- `Occlusion::IsBehindCamera` (Occlusion.cpp:29-50). -/
noncomputable def IsBehindCamera (worldPos cameraPos cameraForward : Vec3) : Bool :=
  let t := worldPos.sub cameraPos
  let d := t.length
  if d < 0.001 then false
  else if Vec3.dot (t.scaleInv d) cameraForward < kBehindCameraDotThreshold then true
  else false

/-- `Occlusion::HasLineOfSightToActor` (Occlusion.cpp:52-68).  `losQuery` is
`some r` when the host `HasLineOfSight` call succeeds with answer `r`, and
`none` when that call itself fails. -/
def HasLineOfSightToActor (playerAvail actorAvail : Bool) (losQuery : Option Bool) : Bool :=
  if ¬playerAvail ∨ ¬actorAvail then true
  else
    match losQuery with
    | some losResult => losResult
    | none => true

/-- `Occlusion::IsActorOccluded` (Occlusion.cpp:70-103).  `camera` is `some`
of the camera position and forward vector when `GetCameraInfo` succeeds. -/
noncomputable def IsActorOccluded (enable actorAvail playerAvail : Bool)
    (camera : Option (Vec3 × Vec3)) (losQuery : Option Bool) (worldPos : Vec3) : Bool :=
  if ¬enable ∨ ¬actorAvail ∨ ¬playerAvail then false
  else
    match camera with
    | none => false
    | some (cameraPos, cameraForward) =>
      let d := (worldPos.sub cameraPos).length
      if d < kCloseDistanceThreshold then false
      else if IsBehindCamera worldPos cameraPos cameraForward then true
      else ! HasLineOfSightToActor playerAvail actorAvail losQuery

/-! ### Presentation cache update (`DrawLabel`) -/

/-- Alpha target from distance (RenderConstants.h:995-997). -/
noncomputable def alphaTargetOf (s : Settings) (dist : ℝ) : ℝ :=
  let fadeT := SmoothStep ((dist - s.FadeStartDistance) / (s.FadeEndDistance - s.FadeStartDistance))
  (1 - fadeT) * (1 - fadeT)

/-- Font-scale target from distance with the camera-distance blend
(RenderConstants.h:999-1028); `kScaleGamma = 0.5`. -/
noncomputable def textScaleTargetOf (s : Settings) (dist : ℝ) (worldPos : Vec3)
    (cameraPos : Option Vec3) : ℝ :=
  let scaleT := (Saturate ((dist - s.ScaleStartDistance) /
    (s.ScaleEndDistance - s.ScaleStartDistance))) ^ (0.5 : ℝ)
  let base := 1 + (s.MinimumScale - 1) * scaleT
  match cameraPos with
  | some cp =>
    let camDist := Real.sqrt ((worldPos.x - cp.x) ^ (2 : ℝ) +
      (worldPos.y - cp.y) ^ (2 : ℝ) + (worldPos.z - cp.z) ^ (2 : ℝ))
    let camScaleT := (Saturate ((camDist - s.ScaleStartDistance) /
      (s.ScaleEndDistance - s.ScaleStartDistance))) ^ (0.5 : ℝ)
    min base (1 + (s.MinimumScale - 1) * camScaleT)
  | none => base

/-- Occlusion target (RenderConstants.h:1039): 1.0 visible, 0.0 occluded. -/
noncomputable def occlusionTargetOf (occluded : Bool) : ℝ := if occluded then 0 else 1

/-- Everything one `DrawLabel` call reads besides the cache entry: the draw
record, the frame counter, the frame delta, settings, camera position
(`none` when unavailable) and the `WorldToScreen` result (`none` when the
projection fails). -/
structure DrawLabelIn where
  d : ActorDrawData
  frame : Nat
  dt : ℝ
  s : Settings
  cameraPos : Option Vec3
  projection : Option (ℝ × ℝ × ℝ)

/-- The entry-state manipulation of `DrawLabel` before projection
(RenderConstants.h:945-979): create the entry if missing, stamp
`lastSeenFrame`, reset the typewriter on a name change, run the re-entry
detection (whose frame test reads the just-stamped `lastSeenFrame`), and
stamp `lastSeenFrame` again. -/
def dlDiscrete (inp : DrawLabelIn) (existing : Option ActorCache) : ActorCache :=
  let e0 := match existing with
    | some e => e
    | none => { lastSeenFrame := inp.frame }
  let e1 := { e0 with lastSeenFrame := inp.frame }
  let e2 := if e1.cachedName ≠ inp.d.name then
      { e1 with cachedName := inp.d.name, typewriterTime := 0, typewriterComplete := false }
    else e1
  let e3 := if e2.initialized ∧ e2.typewriterComplete then
      if kReentryThreshold ≤ sub32 inp.frame e2.lastSeenFrame ∨
          (e2.wasOccluded ∧ ¬inp.d.isOccluded) then
        { e2 with typewriterTime := 0, typewriterComplete := false }
      else e2
    else e2
  { e3 with lastSeenFrame := inp.frame }

/-- The smoothing part of `DrawLabel` after a successful projection
(RenderConstants.h:1041-1113): first-sight seeding, exponential smoothing
of alpha/scale/occlusion, the moving-average position update with the
large-movement blend (the code uses the literals 50.0 and 0.5), the
typewriter advance, and the `wasOccluded` stamp. -/
noncomputable def dlContinuous (inp : DrawLabelIn) (sx sy : ℝ) (e4 : ActorCache) : ActorCache :=
  let alphaTarget := alphaTargetOf inp.s inp.d.distToPlayer
  let textScaleTarget := textScaleTargetOf inp.s inp.d.distToPlayer inp.d.worldPos inp.cameraPos
  let occlusionTarget := occlusionTargetOf inp.d.isOccluded
  let e9 :=
    if ¬e4.initialized then
      { e4 with initialized := true, alphaSmooth := alphaTarget,
                textSizeScale := textScaleTarget, smooth := (sx, sy),
                posHistory := List.replicate kPositionHistorySize (sx, sy),
                historyIndex := 0, historyFilled := true, occlusionSmooth := 1,
                typewriterTime := 0, typewriterComplete := false }
    else
      let aLerp := ExpApproachAlpha inp.dt inp.s.AlphaSettleTime 0.01
      let sLerp := ExpApproachAlpha inp.dt inp.s.ScaleSettleTime 0.01
      let oLerp := ExpApproachAlpha inp.dt inp.s.OcclusionSettleTime 0.01
      let e5 := { e4 with
        alphaSmooth := e4.alphaSmooth + (alphaTarget - e4.alphaSmooth) * aLerp,
        textSizeScale := e4.textSizeScale + (textScaleTarget - e4.textSizeScale) * sLerp,
        occlusionSmooth := e4.occlusionSmooth + (occlusionTarget - e4.occlusionSmooth) * oLerp }
      let r := AddAndGetSmoothed e5 (sx, sy)
      let smoothedPos := r.1
      let e6 := r.2
      let dx := sx - e6.smooth.1
      let dy := sy - e6.smooth.2
      let moveDist := Real.sqrt (dx * dx + dy * dy)
      let e7 :=
        if (50 : ℝ) < moveDist then
          { e6 with smooth := (e6.smooth.1 + (smoothedPos.1 - e6.smooth.1) * (0.5 : ℝ),
                              e6.smooth.2 + (smoothedPos.2 - e6.smooth.2) * (0.5 : ℝ)) }
        else { e6 with smooth := smoothedPos }
      if inp.s.EnableTypewriter ∧ ¬e7.typewriterComplete then
        { e7 with typewriterTime := e7.typewriterTime + inp.dt }
      else e7
  { e9 with wasOccluded := inp.d.isOccluded }

/-- One `Renderer::DrawLabel` call's effect on the actor's cache entry
(RenderConstants.h:943-1120): the pre-projection manipulation always
happens; the smoothing part only when `WorldToScreen` succeeds. -/
noncomputable def drawLabelEntry (inp : DrawLabelIn) (existing : Option ActorCache) :
    ActorCache :=
  let e4 := dlDiscrete inp existing
  match inp.projection with
  | none => e4
  | some (sx, sy, _) => dlContinuous inp sx sy e4

/-! ### Eviction sweep and presentation tick -/

/-- `Renderer::PruneCacheToSnapshot` (RenderConstants.h:782-812): entries in
the snapshot get `lastSeenFrame` refreshed and are kept; entries absent
from the snapshot are erased exactly when more than `kCacheGraceFrames`
frames have passed since they were last seen. -/
def PruneCacheToSnapshot (frame : Nat) (snap : List ActorDrawData) (cache : CacheMap) :
    CacheMap :=
  cache.filterMap (fun p =>
    if snap.any (fun d => d.formID == p.1) then
      some (p.1, { p.2 with lastSeenFrame := frame })
    else if kCacheGraceFrames < sub32 frame p.2.lastSeenFrame then none
    else some p)

/-- The `DrawLabel` loop of `Renderer::Draw` (RenderConstants.h:2084-2087)
threaded over the cache.  `proj` gives each record's `WorldToScreen`
result. -/
noncomputable def drawLabels (s : Settings) (frame : Nat) (dt : ℝ) (cam : Option Vec3)
    (proj : ActorDrawData → Option (ℝ × ℝ × ℝ)) (snap : List ActorDrawData)
    (cache : CacheMap) : CacheMap :=
  snap.foldl (fun c d =>
    storeCache c d.formID
      (drawLabelEntry ⟨d, frame, dt, s, cam, proj d⟩ (lookupCache c d.formID))) cache

/-- What one `Renderer::Draw` tick reads: whether a settings hot-reload was
just triggered (`ReloadKey` pressed edge), `CanDrawOverlay()`, the
graphics renderer singleton, the snapshot copied out under the lock, and
the per-record drawing inputs. -/
structure DrawEnv where
  reloadTriggered : Bool
  canDraw : Bool
  rendererAvailable : Bool
  snapshot : List ActorDrawData
  s : Settings
  dt : ℝ
  cameraPos : Option Vec3
  proj : ActorDrawData → Option (ℝ × ℝ × ℝ)

/-- The presentation-context state a `Draw` tick mutates (besides the
scheduler flag, which is modelled separately by `requestStep`). -/
structure DrawState where
  cache : CacheMap
  frame : Nat
  wasInInvalidState : Bool
  postLoadCooldown : Nat

/-- `Renderer::Draw` (RenderConstants.h:1966-2096), restricted to the state
above: the hot-reload `s_cache.clear()`, the `CanDrawOverlay` early return,
the post-load cooldown, the renderer-missing early return, the frame
increment, the empty-snapshot early return, the `DrawLabel` loop and the
final `PruneCacheToSnapshot` sweep. -/
noncomputable def drawTick (env : DrawEnv) (st : DrawState) : DrawState :=
  let st1 := if env.reloadTriggered then { st with cache := [] } else st
  if ¬env.canDraw then { st1 with wasInInvalidState := true }
  else
    let st2 := if st1.wasInInvalidState then
        { st1 with wasInInvalidState := false, postLoadCooldown := 300 }
      else st1
    if 0 < st2.postLoadCooldown then { st2 with postLoadCooldown := st2.postLoadCooldown - 1 }
    else if ¬env.rendererAvailable then st2
    else
      let frame' := (st2.frame + 1) % 2 ^ 32
      if env.snapshot.isEmpty then { st2 with frame := frame' }
      else
        let cache' := drawLabels env.s frame' env.dt env.cameraPos env.proj env.snapshot st2.cache
        { st2 with frame := frame',
                   cache := PruneCacheToSnapshot frame' env.snapshot cache' }

/-! ### Concrete example inputs (used by the witnesses and counterexamples) -/

/-- Settings at their documented defaults (Settings.h), with the typewriter
reveal off (its default). -/
noncomputable def exSettings : Settings where
  FadeStartDistance := 200
  FadeEndDistance := 2500
  ScaleStartDistance := 200
  ScaleEndDistance := 2500
  MinimumScale := 0.1
  MaxScanDistance := 3000
  EnableOcclusionCulling := true
  OcclusionSettleTime := 0.58
  OcclusionCheckInterval := 3
  EnableTypewriter := false
  VerticalOffset := 8
  HidePlayer := false
  AlphaSettleTime := 0.46
  ScaleSettleTime := 0.46
  PositionSettleTime := 0.38

noncomputable def exPlayer : PlayerInfo :=
  { formID := 20, level := 5, displayName := none, position := ⟨0, 0, 0⟩, height := 0 }

noncomputable def exRState : RState :=
  { queued := false, allowOverlay := false, snapshot := [], cache := [] }

noncomputable def exProducerEnv : ProducerEnv :=
  { canDrawOverlay := true, player := some exPlayer, processLists := some [],
    s := exSettings, frame := 0 }

noncomputable def exProducerEnvNoPlayer : ProducerEnv :=
  { canDrawOverlay := true, player := none, processLists := some [],
    s := exSettings, frame := 0 }

/-- A draw record for an occluded NPC first sighting (C9 counterexample). -/
noncomputable def exC9Record : ActorDrawData :=
  { formID := 42, worldPos := ⟨0, 0, 0⟩, name := "Bandit", level := 5,
    distToPlayer := 300, dispo := Disposition.Neutral, isPlayer := false, isOccluded := true }

noncomputable def exC9In : DrawLabelIn :=
  { d := exC9Record, frame := 10, dt := 0.016, s := exSettings,
    cameraPos := none, projection := some (3, 4, 0.5) }

/-- A visible NPC record (C9 witness). -/
noncomputable def exC9bRecord : ActorDrawData :=
  { formID := 43, worldPos := ⟨0, 0, 0⟩, name := "Whiterun Guard", level := 8,
    distToPlayer := 400, dispo := Disposition.Neutral, isPlayer := false, isOccluded := false }

noncomputable def exC9bIn : DrawLabelIn :=
  { d := exC9bRecord, frame := 11, dt := 0.016, s := exSettings,
    cameraPos := none, projection := some (5, 6, 0.5) }

/-- Cache entry whose reveal animation is complete, last seen on frame 100,
not occluded (C5 failing input). -/
noncomputable def exC5Entry : ActorCache :=
  { smooth := (0, 0), alphaSmooth := 1, textSizeScale := 1, occlusionSmooth := 1,
    initialized := true, lastSeenFrame := 100, lastOcclusionCheckFrame := 0,
    cachedOccluded := false, wasOccluded := false,
    posHistory := List.replicate kPositionHistorySize (0, 0), historyIndex := 0,
    historyFilled := true, typewriterTime := 5, typewriterComplete := true,
    cachedName := "Guard" }

/-- The same entity reseen on frame 131 (31 frames later), visible, same
name (C5 failing input). -/
noncomputable def exC5In : DrawLabelIn :=
  { d := { formID := 7, worldPos := ⟨0, 0, 0⟩, name := "Guard", level := 10,
           distToPlayer := 500, dispo := Disposition.Neutral, isPlayer := false,
           isOccluded := false },
    frame := 131, dt := 0.016, s := exSettings, cameraPos := none,
    projection := some (0, 0, 0.5) }

/-- A fresh cache entry last seen on frame 5 (C4 counterexample). -/
noncomputable def exC4Entry : ActorCache := { lastSeenFrame := 5 }

noncomputable def exC4State : DrawState :=
  { cache := [(7, exC4Entry)], frame := 100, wasInInvalidState := false,
    postLoadCooldown := 0 }

/-- A presentation tick whose copied snapshot is empty (C4 counterexample). -/
noncomputable def exC4Env : DrawEnv :=
  { reloadTriggered := false, canDraw := true, rendererAvailable := true,
    snapshot := [], s := exSettings, dt := 0.016, cameraPos := none,
    proj := fun _ => none }

/-- A draw record with form ID 7 (C4 witness). -/
noncomputable def exC4Record : ActorDrawData :=
  { formID := 7, worldPos := ⟨0, 0, 0⟩, name := "Guard", level := 10,
    distToPlayer := 500, dispo := Disposition.Neutral, isPlayer := false,
    isOccluded := false }

/-- A stale entry last seen on frame 0 (C4 witness). -/
noncomputable def exC4Stale : ActorCache := { lastSeenFrame := 0 }

/-- Known, initialized entry with a filled history (C8 witness). -/
noncomputable def exC8Entry : ActorCache :=
  { smooth := (0, 0), alphaSmooth := 1, textSizeScale := 1, occlusionSmooth := 1,
    initialized := true, lastSeenFrame := 50, lastOcclusionCheckFrame := 0,
    cachedOccluded := false, wasOccluded := false,
    posHistory := List.replicate kPositionHistorySize (0, 0), historyIndex := 0,
    historyFilled := true, typewriterTime := 0, typewriterComplete := false,
    cachedName := "Guard" }

noncomputable def exC8In : DrawLabelIn :=
  { d := { formID := 7, worldPos := ⟨0, 0, 0⟩, name := "Guard", level := 10,
           distToPlayer := 500, dispo := Disposition.Neutral, isPlayer := false,
           isOccluded := false },
    frame := 51, dt := 0.016, s := exSettings, cameraPos := none,
    projection := some (0, 0, 0.5) }

/-! ### Theorems: update scheduler (C1) -/

theorem foldRequests_true (l : List Bool) (m : Nat) :
    l.foldl (fun acc ta =>
      let r := requestStep acc.1 ta
      (r.1, acc.2 + r.2)) (true, m) = (true, m) := by
  induction l with
  | nil => rfl
  | cons b l ih => simpa [requestStep] using ih

theorem runRequests_flag_set (tas : List Bool) : runRequests true tas = (true, 0) :=
  foldRequests_true tas 0

theorem runRequests_idle_burst (tas : List Bool) (hne : tas ≠ [])
    (hall : ∀ t ∈ tas, t = true) : runRequests false tas = (true, 1) := by
  cases tas with
  | nil => exact absurd rfl hne
  | cons t rest =>
    have ht : t = true := hall t (List.mem_cons_self t rest)
    subst ht
    show List.foldl _ (_, _) rest = _
    simpa [requestStep] using foldRequests_true rest 1

theorem updateSnapshot_clears_queued (env : ProducerEnv) (st : RState) :
    (UpdateSnapshot_GameThread env st).queued = false := by
  unfold UpdateSnapshot_GameThread
  by_cases h : env.canDrawOverlay
  · simp only [h]
    cases env.player <;> cases env.processLists <;> simp
  · simp [h]

/-- C1: at most one snapshot production is in flight at a time.  While the
single-flight flag is set, any burst of `QueueSnapshotUpdate_RenderThread`
calls schedules nothing; from the idle state, a non-empty burst with the
task interface available schedules exactly one `UpdateSnapshot_GameThread`
invocation; the producer clears the flag on every exit path; and a request
whose scheduling fails (task interface unavailable) leaves the flag
cleared, scheduling nothing, so a later request can schedule again. -/
theorem claim_C1_single_flight :
    (∀ tas : List Bool, runRequests true tas = (true, 0))
  ∧ (∀ tas : List Bool, tas ≠ [] → (∀ t ∈ tas, t = true) →
      runRequests false tas = (true, 1))
  ∧ (∀ (env : ProducerEnv) (st : RState), (UpdateSnapshot_GameThread env st).queued = false)
  ∧ requestStep false false = (false, 0) :=
  ⟨runRequests_flag_set, runRequests_idle_burst, updateSnapshot_clears_queued, rfl⟩

theorem claim_C1_single_flight_witness :
    ([true, true, true] ≠ ([] : List Bool)) ∧
    runRequests false [true, true, true] = (true, 1) := by
  refine ⟨by simp, ?_⟩
  exact claim_C1_single_flight.2.1 [true, true, true] (by simp) (by simp)

/-! ### Theorems: graceful degradation (C7) -/

/-- C7: whenever the player or the process lists are unavailable,
`UpdateSnapshot_GameThread` publishes an empty snapshot — regardless of the
previous snapshot contents — and (being a total function) returns
normally. -/
theorem claim_C7_graceful_degradation (env : ProducerEnv) (st : RState)
    (h : env.player = none ∨ env.processLists = none) :
    (UpdateSnapshot_GameThread env st).snapshot = [] := by
  unfold UpdateSnapshot_GameThread
  by_cases hc : env.canDrawOverlay
  · rcases h with h | h
    · simp only [hc]
      rw [h]
      cases env.processLists <;> simp
    · simp only [hc]
      rw [h]
      cases env.player <;> simp
  · simp [hc]

theorem claim_C7_graceful_degradation_witness :
    (exProducerEnvNoPlayer.player = none ∨ exProducerEnvNoPlayer.processLists = none) ∧
    (UpdateSnapshot_GameThread exProducerEnvNoPlayer
      { exRState with snapshot := [exC4Record] }).snapshot = [] := by
  refine ⟨Or.inl rfl, ?_⟩
  exact claim_C7_graceful_degradation exProducerEnvNoPlayer _ (Or.inl rfl)

/-! ### Theorems: ExpApproachAlpha totality and range (C10) -/

/-- C10: `ExpApproachAlpha` is total and its result lies in `[0,1]`: the
clamped settle time is positive (so the exponent's divisor is never zero),
the blend factor is clamped into `[0,1]`, and hence every smoothing step
yields a convex combination of the old value and the target. -/
theorem claim_C10_blend_in_unit_interval (dt settleTime old target : ℝ) :
    0 < max (1e-5 : ℝ) settleTime
  ∧ 0 ≤ ExpApproachAlpha dt settleTime 0.01
  ∧ ExpApproachAlpha dt settleTime 0.01 ≤ 1
  ∧ min old target ≤ expSmoothStep dt settleTime target old
  ∧ expSmoothStep dt settleTime target old ≤ max old target := by
  have hT : (0 : ℝ) < max (1e-5 : ℝ) settleTime :=
    lt_of_lt_of_le (by norm_num) (le_max_left _ _)
  have h0 : 0 ≤ ExpApproachAlpha dt settleTime 0.01 := by
    unfold ExpApproachAlpha clampR
    exact le_max_left _ _
  have h1 : ExpApproachAlpha dt settleTime 0.01 ≤ 1 := by
    unfold ExpApproachAlpha clampR
    exact max_le (by norm_num) (min_le_right _ _)
  refine ⟨hT, h0, h1, ?_, ?_⟩
  · unfold expSmoothStep
    rcases le_total old target with h | h
    · rw [min_eq_left h]
      nlinarith
    · rw [min_eq_right h]
      nlinarith
  · unfold expSmoothStep
    rcases le_total old target with h | h
    · rw [max_eq_right h]
      nlinarith
    · rw [max_eq_left h]
      nlinarith

/-! ### Theorems: frame-rate-independent smoothing (C3) -/

theorem expApproachAlpha_pos_dt (d settleTime : ℝ) (hd : 0 < d) :
    ExpApproachAlpha d settleTime 0.01 =
      1 - (0.01 : ℝ) ^ (d / max (1e-5 : ℝ) settleTime) := by
  unfold ExpApproachAlpha clampR
  have hT : (0 : ℝ) < max (1e-5 : ℝ) settleTime :=
    lt_of_lt_of_le (by norm_num) (le_max_left _ _)
  rw [max_eq_right hd.le]
  have hx : (0 : ℝ) ≤ d / max (1e-5 : ℝ) settleTime := div_nonneg hd.le hT.le
  have hle : (0.01 : ℝ) ^ (d / max (1e-5 : ℝ) settleTime) ≤ 1 :=
    Real.rpow_le_one (by norm_num) (by norm_num) hx
  have hge : (0 : ℝ) ≤ (0.01 : ℝ) ^ (d / max (1e-5 : ℝ) settleTime) :=
    Real.rpow_nonneg (by norm_num) _
  rw [min_eq_left (by linarith), max_eq_right (by linarith)]

/-- Closed form of the iterated smoothing step for positive frame deltas:
the residual gap contracts by `0.01 ^ (Σ dt / max 1e-5 T)`. -/
theorem expSmoothRun_closed (settleTime target init : ℝ) (dts : List ℝ)
    (hpos : ∀ d ∈ dts, 0 < d) :
    expSmoothRun settleTime target init dts =
      target + (0.01 : ℝ) ^ (dts.sum / max (1e-5 : ℝ) settleTime) * (init - target) := by
  induction dts generalizing init with
  | nil =>
    simp [expSmoothRun, Real.rpow_zero]
  | cons d rest ih =>
    have hd : 0 < d := hpos d (by simp)
    have hrest : ∀ x ∈ rest, 0 < x := fun x hx => hpos x (by simp [hx])
    have hstep : expSmoothStep d settleTime target init =
        target + (0.01 : ℝ) ^ (d / max (1e-5 : ℝ) settleTime) * (init - target) := by
      unfold expSmoothStep
      rw [expApproachAlpha_pos_dt d settleTime hd]
      ring
    have hrun : expSmoothRun settleTime target init (d :: rest) =
        expSmoothRun settleTime target (expSmoothStep d settleTime target init) rest := rfl
    rw [hrun, ih _ hrest, hstep, List.sum_cons, add_div,
      Real.rpow_add (by norm_num : (0 : ℝ) < 0.01)]
    ring

/-- C3 counterexample: with settle time `T = 1e-6 > 0` and the single
positive step `dt = 1e-6` (a partition of elapsed time `T`), the smoothed
value ends more than 1% of the initial gap away from the target, because
`ExpApproachAlpha` clamps the settle time up to `1e-5`. -/
theorem claim_C3_counterexample :
    (0 : ℝ) < 1e-6
  ∧ (∀ d ∈ [(1e-6 : ℝ)], 0 < d)
  ∧ ([(1e-6 : ℝ)].sum = 1e-6)
  ∧ 0.01 * |(0 : ℝ) - 1| < |expSmoothRun 1e-6 1 0 [1e-6] - 1| := by
  refine ⟨by norm_num, ?_, by simp, ?_⟩
  · intro d hd
    rw [List.mem_singleton] at hd
    rw [hd]; norm_num
  · rw [expSmoothRun_closed 1e-6 1 0 [1e-6] ?hp]
    case hp =>
      intro d hd
      rw [List.mem_singleton] at hd
      rw [hd]; norm_num
    have hmax : max (1e-5 : ℝ) 1e-6 = 1e-5 := max_eq_left (by norm_num)
    rw [List.sum_singleton, hmax]
    have hdiv : (1e-6 : ℝ) / 1e-5 = 0.1 := by norm_num
    rw [hdiv]
    have hpos : (0 : ℝ) < (0.01 : ℝ) ^ (0.1 : ℝ) :=
      Real.rpow_pos_of_pos (by norm_num) _
    have habs : |1 + (0.01 : ℝ) ^ (0.1 : ℝ) * (0 - 1) - 1| = (0.01 : ℝ) ^ (0.1 : ℝ) := by
      rw [show (1 : ℝ) + (0.01 : ℝ) ^ (0.1 : ℝ) * (0 - 1) - 1 =
        -((0.01 : ℝ) ^ (0.1 : ℝ)) by ring, abs_neg, abs_of_pos hpos]
    rw [habs]
    have hlt : (0.01 : ℝ) ^ (1 : ℝ) < (0.01 : ℝ) ^ (0.1 : ℝ) :=
      Real.rpow_lt_rpow_of_exponent_gt (by norm_num) (by norm_num)
        (show (0.1 : ℝ) < 1 by norm_num)
    rw [Real.rpow_one] at hlt
    have : |(0 : ℝ) - 1| = 1 := by norm_num
    rw [this]
    linarith

/-- C3 (amended): for every settle time `T ≥ 1e-5` (the minimum settle time
the code enforces), iterating the smoothing step over any partition of
elapsed time `T` into positive steps leaves the smoothed value exactly 1%
of the initial gap from the target (hence within 1%); and for every settle
time, any two positive-step partitions of the same elapsed time yield
exactly the same converged value. -/
theorem claim_C3_framerate_independence (settleTime init target : ℝ)
    (dts1 dts2 : List ℝ) (h1 : ∀ d ∈ dts1, 0 < d) (h2 : ∀ d ∈ dts2, 0 < d) :
    (kMinSettleTime ≤ settleTime → dts1.sum = settleTime →
      |expSmoothRun settleTime target init dts1 - target| = 0.01 * |init - target|)
  ∧ (dts1.sum = dts2.sum →
      expSmoothRun settleTime target init dts1 = expSmoothRun settleTime target init dts2) := by
  constructor
  · intro hT hsum
    have hTpos : (0 : ℝ) < settleTime := by
      have : (0 : ℝ) < kMinSettleTime := by unfold kMinSettleTime; norm_num
      linarith
    rw [expSmoothRun_closed settleTime target init dts1 h1, hsum,
      max_eq_right (by unfold kMinSettleTime at hT; exact hT),
      div_self (ne_of_gt hTpos), Real.rpow_one]
    rw [show target + 0.01 * (init - target) - target = 0.01 * (init - target) by ring,
      abs_mul]
    norm_num
  · intro hsum
    rw [expSmoothRun_closed settleTime target init dts1 h1,
      expSmoothRun_closed settleTime target init dts2 h2, hsum]

theorem claim_C3_framerate_independence_witness :
    |expSmoothRun 1 1 0 [1] - 1| = 0.01 * |(0 : ℝ) - 1| ∧
    expSmoothRun 1 1 0 [(0.5 : ℝ), 0.5] = expSmoothRun 1 1 0 [1] := by
  have hp1 : ∀ d ∈ [(1 : ℝ)], 0 < d := by
    intro d hd; rw [List.mem_singleton] at hd; rw [hd]; norm_num
  have hp2 : ∀ d ∈ [(0.5 : ℝ), 0.5], 0 < d := by
    intro d hd
    rcases List.mem_cons.1 hd with h | h
    · rw [h]; norm_num
    · rw [List.mem_singleton] at h; rw [h]; norm_num
  have h := claim_C3_framerate_independence 1 0 1 [1] [(0.5 : ℝ), 0.5] hp1 hp2
  refine ⟨h.1 (by unfold kMinSettleTime; norm_num) (by simp), ?_⟩
  exact (h.2 (by norm_num)).symm

/-! ### Theorems: occlusion decision procedure (C6) -/

/-- C6: `IsActorOccluded` follows the specified decision procedure: visible
when occlusion is disabled, a reference is missing, or camera data is
unavailable; always visible within 100 units of the camera; beyond that,
occluded exactly when the normalized camera-to-target direction dotted
with the camera forward vector is below −0.2; otherwise the negation of
the host line-of-sight query, defaulting to visible if that query fails. -/
theorem claim_C6_occlusion_procedure (enable actorAvail playerAvail : Bool)
    (camera : Option (Vec3 × Vec3)) (losQuery : Option Bool) (worldPos : Vec3) :
    ((enable = false ∨ actorAvail = false ∨ playerAvail = false) →
      IsActorOccluded enable actorAvail playerAvail camera losQuery worldPos = false)
  ∧ (camera = none →
      IsActorOccluded enable actorAvail playerAvail camera losQuery worldPos = false)
  ∧ (∀ cameraPos cameraForward, camera = some (cameraPos, cameraForward) →
      ((worldPos.sub cameraPos).length < kCloseDistanceThreshold →
        IsActorOccluded enable actorAvail playerAvail camera losQuery worldPos = false)
    ∧ (enable = true → actorAvail = true → playerAvail = true →
        ¬ (worldPos.sub cameraPos).length < kCloseDistanceThreshold →
        (Vec3.dot ((worldPos.sub cameraPos).normalize) cameraForward <
            kBehindCameraDotThreshold →
          IsActorOccluded enable actorAvail playerAvail camera losQuery worldPos = true)
      ∧ (¬ Vec3.dot ((worldPos.sub cameraPos).normalize) cameraForward <
            kBehindCameraDotThreshold →
          IsActorOccluded enable actorAvail playerAvail camera losQuery worldPos =
            (match losQuery with | some r => !r | none => false)))) := by
  refine ⟨?_, ?_, ?_⟩
  · intro h
    unfold IsActorOccluded
    rcases h with h | h | h <;> simp [h]
  · intro h
    unfold IsActorOccluded
    rw [h]
    split_ifs <;> rfl
  · intro cameraPos cameraForward hcam
    subst hcam
    constructor
    · intro hclose
      unfold IsActorOccluded
      by_cases h1 : (¬enable = true ∨ ¬actorAvail = true ∨ ¬playerAvail = true)
      · rw [if_pos h1]
      · rw [if_neg h1]
        show (if (worldPos.sub cameraPos).length < kCloseDistanceThreshold then false
          else _) = false
        rw [if_pos hclose]
    · intro he ha hp hfar
      subst he; subst ha; subst hp
      have hd001 : ¬ (worldPos.sub cameraPos).length < 0.001 := by
        unfold kCloseDistanceThreshold at hfar
        push_neg at hfar ⊢
        linarith
      constructor
      · intro hdot
        have hbehind : IsBehindCamera worldPos cameraPos cameraForward = true := by
          unfold IsBehindCamera
          rw [if_neg hd001]
          unfold Vec3.normalize at hdot
          rw [if_pos hdot]
        unfold IsActorOccluded
        rw [if_neg (by simp)]
        show (if _ < kCloseDistanceThreshold then false
          else if IsBehindCamera worldPos cameraPos cameraForward then true else _) = true
        rw [if_neg hfar, if_pos (by rw [hbehind])]
      · intro hdot
        have hbehind : IsBehindCamera worldPos cameraPos cameraForward = false := by
          unfold IsBehindCamera
          rw [if_neg hd001]
          unfold Vec3.normalize at hdot
          rw [if_neg hdot]
        unfold IsActorOccluded
        rw [if_neg (by simp)]
        show (if _ < kCloseDistanceThreshold then false
          else if IsBehindCamera worldPos cameraPos cameraForward then true
          else ! HasLineOfSightToActor true true losQuery) = _
        rw [if_neg hfar, if_neg (by rw [hbehind]; simp)]
        unfold HasLineOfSightToActor
        rw [if_neg (by simp)]
        cases losQuery <;> rfl

theorem claim_C6_occlusion_procedure_witness :
    IsActorOccluded true true true none (some true) ⟨1, 2, 3⟩ = false ∧
    IsActorOccluded true true true (some (⟨0, 0, 0⟩, ⟨0, 1, 0⟩)) (some true)
      ⟨0, -200, 0⟩ = true := by
  constructor
  · exact (claim_C6_occlusion_procedure true true true none (some true) ⟨1, 2, 3⟩).2.1 rfl
  · have h := (claim_C6_occlusion_procedure true true true
      (some (⟨0, 0, 0⟩, ⟨0, 1, 0⟩)) (some true) ⟨0, -200, 0⟩).2.2 ⟨0, 0, 0⟩ ⟨0, 1, 0⟩ rfl
    have hlen : (Vec3.sub ⟨0, -200, 0⟩ ⟨0, 0, 0⟩ : Vec3).length = 200 := by
      unfold Vec3.sub Vec3.length
      rw [show ((0 : ℝ) - 0) * ((0 : ℝ) - 0) + (-200 - 0) * (-200 - 0) +
        ((0 : ℝ) - 0) * ((0 : ℝ) - 0) = 200 ^ 2 by norm_num]
      exact Real.sqrt_sq (by norm_num)
    have hfar : ¬ (Vec3.sub ⟨0, -200, 0⟩ ⟨0, 0, 0⟩ : Vec3).length <
        kCloseDistanceThreshold := by
      rw [hlen]
      unfold kCloseDistanceThreshold
      norm_num
    have hdot : Vec3.dot ((Vec3.sub ⟨0, -200, 0⟩ ⟨0, 0, 0⟩ : Vec3).normalize)
        ⟨0, 1, 0⟩ < kBehindCameraDotThreshold := by
      unfold Vec3.normalize Vec3.scaleInv Vec3.dot
      rw [hlen]
      unfold Vec3.sub kBehindCameraDotThreshold
      norm_num
    exact (h.2 rfl rfl rfl hfar).1 hdot

/-! ### Theorems: bounded snapshot (C2) -/

theorem scanLoop_length_le (s : Settings) (frame : Nat) (pp : Vec3) (m : ℝ)
    (hs : List (Option ActorInfo)) :
    ∀ (added scanned : Nat) (buf : List ActorDrawData) (cache : CacheMap),
    (scanLoop s frame pp m hs added scanned buf cache).1.length ≤
      buf.length + (kMaxActors - added) := by
  induction hs with
  | nil =>
    intro added scanned buf cache
    simp only [scanLoop]
    exact Nat.le_add_right _ _
  | cons h rest ih =>
    intro added scanned buf cache
    by_cases h16 : kMaxActors ≤ added
    · simp only [scanLoop, if_pos h16]
      exact Nat.le_add_right _ _
    by_cases h32 : kMaxScan ≤ scanned
    · simp only [scanLoop, if_neg h16, if_pos h32]
      exact Nat.le_add_right _ _
    cases h with
    | none =>
      simp only [scanLoop, if_neg h16, if_neg h32]
      exact ih added (scanned + 1) buf cache
    | some a =>
      simp only [scanLoop, if_neg h16, if_neg h32]
      by_cases hpl : a.isPlayerRef = true
      · simp only [hpl, if_true]
        exact ih added (scanned + 1) buf cache
      simp only [hpl, if_false, Bool.false_eq_true]
      by_cases hdead : a.isDead = true
      · simp only [hdead, if_true]
        exact ih added (scanned + 1) buf cache
      simp only [hdead, if_false, Bool.false_eq_true]
      by_cases hdist : m < sqDist pp a.position
      · simp only [hdist, if_true]
        exact ih added (scanned + 1) buf cache
      · simp only [hdist, if_false]
        have := ih (added + 1) (scanned + 1)
          (buf ++ [npcRecord s a (sqDist pp a.position)
            (occlusionFor s frame a cache).1])
          (occlusionFor s frame a cache).2
        simp only [List.length_append, List.length_singleton] at this
        unfold kMaxActors at this h16 ⊢
        omega

theorem scanLoop_take (s : Settings) (frame : Nat) (pp : Vec3) (m : ℝ)
    (hs : List (Option ActorInfo)) :
    ∀ (added scanned : Nat) (buf : List ActorDrawData) (cache : CacheMap),
    scanLoop s frame pp m hs added scanned buf cache =
      scanLoop s frame pp m (hs.take (kMaxScan - scanned)) added scanned buf cache := by
  induction hs with
  | nil =>
    intro added scanned buf cache
    rw [List.take_nil]
  | cons h rest ih =>
    intro added scanned buf cache
    by_cases h32 : kMaxScan ≤ scanned
    · have hz : kMaxScan - scanned = 0 := by omega
      rw [hz, List.take_zero]
      by_cases h16 : kMaxActors ≤ added
      · simp only [scanLoop, if_pos h16]
      · simp only [scanLoop, if_neg h16, if_pos h32]
    · have hsc : kMaxScan - scanned = (kMaxScan - (scanned + 1)) + 1 := by omega
      rw [hsc, List.take_succ_cons]
      by_cases h16 : kMaxActors ≤ added
      · simp only [scanLoop, if_pos h16]
      · simp only [scanLoop, if_neg h16, if_neg h32]
        cases h with
        | none => exact ih added (scanned + 1) buf cache
        | some a =>
          by_cases hpl : a.isPlayerRef = true
          · simp only [hpl, if_true]
            exact ih added (scanned + 1) buf cache
          simp only [hpl, if_false, Bool.false_eq_true]
          by_cases hdead : a.isDead = true
          · simp only [hdead, if_true]
            exact ih added (scanned + 1) buf cache
          simp only [hdead, if_false, Bool.false_eq_true]
          by_cases hdist : m < sqDist pp a.position
          · simp only [hdist, if_true]
            exact ih added (scanned + 1) buf cache
          · simp only [hdist, if_false]
            exact ih (added + 1) (scanned + 1) _ _

theorem scanLoop_appends_npcs (s : Settings) (frame : Nat) (pp : Vec3) (m : ℝ)
    (hs : List (Option ActorInfo)) :
    ∀ (added scanned : Nat) (buf : List ActorDrawData) (cache : CacheMap),
    ∃ tail, (scanLoop s frame pp m hs added scanned buf cache).1 = buf ++ tail ∧
      ∀ d ∈ tail, d.isPlayer = false := by
  induction hs with
  | nil =>
    intro added scanned buf cache
    exact ⟨[], by simp [scanLoop], by simp⟩
  | cons h rest ih =>
    intro added scanned buf cache
    by_cases h16 : kMaxActors ≤ added
    · refine ⟨[], ?_, by simp⟩
      simp [scanLoop, if_pos h16]
    by_cases h32 : kMaxScan ≤ scanned
    · refine ⟨[], ?_, by simp⟩
      simp [scanLoop, if_neg h16, if_pos h32]
    cases h with
    | none =>
      obtain ⟨tail, ht, hall⟩ := ih added (scanned + 1) buf cache
      refine ⟨tail, ?_, hall⟩
      simp only [scanLoop, if_neg h16, if_neg h32]
      exact ht
    | some a =>
      by_cases hpl : a.isPlayerRef = true
      · obtain ⟨tail, ht, hall⟩ := ih added (scanned + 1) buf cache
        refine ⟨tail, ?_, hall⟩
        simp only [scanLoop, if_neg h16, if_neg h32, hpl, if_true]
        exact ht
      by_cases hdead : a.isDead = true
      · obtain ⟨tail, ht, hall⟩ := ih added (scanned + 1) buf cache
        refine ⟨tail, ?_, hall⟩
        simp only [scanLoop, if_neg h16, if_neg h32, hpl, if_false, Bool.false_eq_true,
          hdead, if_true]
        exact ht
      by_cases hdist : m < sqDist pp a.position
      · obtain ⟨tail, ht, hall⟩ := ih added (scanned + 1) buf cache
        refine ⟨tail, ?_, hall⟩
        simp only [scanLoop, if_neg h16, if_neg h32, hpl, if_false, Bool.false_eq_true,
          hdead, hdist, if_true]
        exact ht
      · obtain ⟨tail, ht, hall⟩ := ih (added + 1) (scanned + 1)
          (buf ++ [npcRecord s a (sqDist pp a.position) (occlusionFor s frame a cache).1])
          (occlusionFor s frame a cache).2
        refine ⟨npcRecord s a (sqDist pp a.position) (occlusionFor s frame a cache).1 :: tail,
          ?_, ?_⟩
        · simp only [scanLoop, if_neg h16, if_neg h32, hpl, if_false, Bool.false_eq_true,
            hdead, hdist, if_false]
          rw [ht, List.append_assoc, List.singleton_append]
        · intro d hd
          rcases List.mem_cons.1 hd with h | h
          · rw [h]; rfl
          · exact hall d h

theorem producer_snapshot_shape (env : ProducerEnv) (st : RState) :
    ∃ pbuf tail, (UpdateSnapshot_GameThread env st).snapshot = pbuf ++ tail ∧
      pbuf.length ≤ 1 ∧ ∀ d ∈ tail, d.isPlayer = false := by
  unfold UpdateSnapshot_GameThread
  by_cases hc : env.canDrawOverlay
  · rw [if_neg (by simp [hc])]
    cases env.player with
    | none =>
      cases env.processLists <;> exact ⟨[], [], by simp, by simp, by simp⟩
    | some p =>
      cases env.processLists with
      | none => exact ⟨[], [], by simp, by simp, by simp⟩
      | some handles =>
        by_cases hh : env.s.HidePlayer = true
        · obtain ⟨tail, ht, hall⟩ := scanLoop_appends_npcs env.s env.frame p.position
            (env.s.MaxScanDistance * env.s.MaxScanDistance) handles 1 0 [] st.cache
          refine ⟨[], tail, ?_, by simp, hall⟩
          simp only [hh, if_false]
          simpa using ht
        · obtain ⟨tail, ht, hall⟩ := scanLoop_appends_npcs env.s env.frame p.position
            (env.s.MaxScanDistance * env.s.MaxScanDistance) handles 1 0
            [playerRecord env.s p] st.cache
          refine ⟨[playerRecord env.s p], tail, ?_, by simp, hall⟩
          simp only [hh, if_true]
          simpa using ht
  · rw [if_pos (by simp [hc])]
    exact ⟨[], [], by simp, by simp, by simp⟩

/-- C2: every snapshot produced by `UpdateSnapshot_GameThread` has at most
`kMaxActors = 16` records; the candidate scan inspects at most the first
`kMaxScan = 32` handles (so the result is unchanged if the handle list is
truncated to 32 entries); and any record with the viewer flag set is
record 0. -/
theorem claim_C2_bounded_snapshot (env : ProducerEnv) (st : RState) :
    (UpdateSnapshot_GameThread env st).snapshot.length ≤ kMaxActors
  ∧ UpdateSnapshot_GameThread env st =
      UpdateSnapshot_GameThread
        { env with processLists := env.processLists.map (fun hs => hs.take kMaxScan) } st
  ∧ ∀ (i : Nat) (h : i < (UpdateSnapshot_GameThread env st).snapshot.length),
      ((UpdateSnapshot_GameThread env st).snapshot.get ⟨i, h⟩).isPlayer = true → i = 0 := by
  refine ⟨?_, ?_, ?_⟩
  · unfold UpdateSnapshot_GameThread
    by_cases hc : env.canDrawOverlay
    · rw [if_neg (by simp [hc])]
      cases env.player with
      | none => cases env.processLists <;> simp [kMaxActors]
      | some p =>
        cases env.processLists with
        | none => simp [kMaxActors]
        | some handles =>
          show (scanLoop env.s env.frame p.position
            (env.s.MaxScanDistance * env.s.MaxScanDistance) handles 1 0
            (if ¬env.s.HidePlayer = true then [playerRecord env.s p] else [])
            st.cache).1.length ≤ kMaxActors
          by_cases hh : env.s.HidePlayer = true
          · rw [if_neg (by simp [hh])]
            have hle := scanLoop_length_le env.s env.frame p.position
              (env.s.MaxScanDistance * env.s.MaxScanDistance) handles 1 0 [] st.cache
            simp only [List.length_nil] at hle
            unfold kMaxActors at hle ⊢
            omega
          · rw [if_pos (by simp [hh])]
            have hle := scanLoop_length_le env.s env.frame p.position
              (env.s.MaxScanDistance * env.s.MaxScanDistance) handles 1 0
              [playerRecord env.s p] st.cache
            simp only [List.length_singleton] at hle
            unfold kMaxActors at hle ⊢
            omega
    · rw [if_pos (by simp [hc])]
      simp [kMaxActors]
  · unfold UpdateSnapshot_GameThread
    by_cases hc : env.canDrawOverlay
    · rw [if_neg (by simp [hc]), if_neg (by simp [hc])]
      cases env.player with
      | none => cases env.processLists <;> simp
      | some p =>
        cases env.processLists with
        | none => simp
        | some handles =>
          have ht := scanLoop_take env.s env.frame p.position
            (env.s.MaxScanDistance * env.s.MaxScanDistance) handles 1 0
            (if ¬env.s.HidePlayer = true then [playerRecord env.s p] else []) st.cache
          rw [Nat.sub_zero] at ht
          simp only [ht]
          rfl
    · rw [if_pos (by simp [hc]), if_pos (by simp [hc])]
  · intro i h hp
    obtain ⟨pbuf, tail, hsnap, hlen, hall⟩ := producer_snapshot_shape env st
    by_contra hne
    have hi : pbuf.length ≤ i := by omega
    have hmem : (UpdateSnapshot_GameThread env st).snapshot.get ⟨i, h⟩ ∈ tail := by
      rw [List.get_eq_getElem, List.getElem_of_eq hsnap h,
        List.getElem_append_right hi]
      exact List.getElem_mem _
    have hfalse := hall _ hmem
    simp only [List.get_eq_getElem] at hfalse
    simp only [List.get_eq_getElem] at hp
    rw [hfalse] at hp
    exact Bool.false_ne_true hp

theorem claim_C2_bounded_snapshot_witness :
    0 < (UpdateSnapshot_GameThread exProducerEnv exRState).snapshot.length ∧
    (UpdateSnapshot_GameThread exProducerEnv exRState).snapshot.length ≤ kMaxActors ∧
    (0 : Nat) = 0 := by
  have hsnap : (UpdateSnapshot_GameThread exProducerEnv exRState).snapshot =
      [playerRecord exSettings exPlayer] := by
    simp [UpdateSnapshot_GameThread, exProducerEnv, exSettings, scanLoop]
  have h0 : 0 < (UpdateSnapshot_GameThread exProducerEnv exRState).snapshot.length := by
    rw [hsnap]
    simp
  refine ⟨h0, (claim_C2_bounded_snapshot exProducerEnv exRState).1, ?_⟩
  refine (claim_C2_bounded_snapshot exProducerEnv exRState).2.2 0 h0 ?_
  rw [List.get_eq_getElem, List.getElem_of_eq hsnap h0]
  rfl

/-! ### Theorems: dual-mode position smoothing (C8) -/

theorem dlDiscrete_some_fields (inp : DrawLabelIn) (e : ActorCache) :
    (dlDiscrete inp (some e)).smooth = e.smooth ∧
    (dlDiscrete inp (some e)).posHistory = e.posHistory ∧
    (dlDiscrete inp (some e)).historyIndex = e.historyIndex ∧
    (dlDiscrete inp (some e)).historyFilled = e.historyFilled ∧
    (dlDiscrete inp (some e)).initialized = e.initialized ∧
    (dlDiscrete inp (some e)).alphaSmooth = e.alphaSmooth ∧
    (dlDiscrete inp (some e)).textSizeScale = e.textSizeScale ∧
    (dlDiscrete inp (some e)).occlusionSmooth = e.occlusionSmooth ∧
    (dlDiscrete inp (some e)).wasOccluded = e.wasOccluded := by
  simp only [dlDiscrete]
  split_ifs <;> simp

/-- C8: for an update of a known (initialized, history-filled) identity with
a successful projection `(sx, sy)`: when the distance between the previous
smoothed position and the new raw position exceeds 50 pixels, the smoothed
position advances toward the moving-average of the last 8 raw samples by
the fraction 0.5; otherwise it is set to that moving average directly. -/
theorem claim_C8_dual_mode_position (inp : DrawLabelIn) (e : ActorCache) (sx sy sz : ℝ)
    (hproj : inp.projection = some (sx, sy, sz))
    (hinit : e.initialized = true)
    (hfill : e.historyFilled = true)
    (hlen : e.posHistory.length = kPositionHistorySize) :
    (drawLabelEntry inp (some e)).smooth =
      if (50 : ℝ) < Real.sqrt ((sx - e.smooth.1) * (sx - e.smooth.1) +
          (sy - e.smooth.2) * (sy - e.smooth.2)) then
        (e.smooth.1 + ((((e.posHistory.set e.historyIndex (sx, sy)).map Prod.fst).sum / 8) -
            e.smooth.1) * 0.5,
         e.smooth.2 + ((((e.posHistory.set e.historyIndex (sx, sy)).map Prod.snd).sum / 8) -
            e.smooth.2) * 0.5)
      else
        (((e.posHistory.set e.historyIndex (sx, sy)).map Prod.fst).sum / 8,
         ((e.posHistory.set e.historyIndex (sx, sy)).map Prod.snd).sum / 8) := by
  obtain ⟨hsm, hph, hhi, hhf, hini, ha, hts, ho, hw⟩ := dlDiscrete_some_fields inp e
  unfold drawLabelEntry
  rw [hproj]
  have hlen8 : e.posHistory.length = 8 := hlen
  have hF : ((e.posHistory.map Prod.fst).set e.historyIndex sx).take 8 =
      (e.posHistory.map Prod.fst).set e.historyIndex sx :=
    List.take_of_length_le (by simp [hlen8])
  have hS : ((e.posHistory.map Prod.snd).set e.historyIndex sy).take 8 =
      (e.posHistory.map Prod.snd).set e.historyIndex sy :=
    List.take_of_length_le (by simp [hlen8])
  simp only [dlContinuous, AddAndGetSmoothed, hsm, hph, hhi, hhf, hini, hinit, hfill,
    kPositionHistorySize, List.map_set, hF, hS]
  norm_num [apply_ite ActorCache.smooth, ite_self]
  rw [hF, hS]

theorem claim_C8_dual_mode_position_witness :
    (drawLabelEntry exC8In (some exC8Entry)).smooth = (0, 0) := by
  have h := claim_C8_dual_mode_position exC8In exC8Entry 0 0 0.5 rfl rfl rfl rfl
  rw [h]
  simp [exC8Entry, List.sum_replicate]

/-! ### Theorems: first-sight seeding (C9) -/

theorem dlDiscrete_none_initialized (inp : DrawLabelIn) :
    (dlDiscrete inp none).initialized = false := by
  simp only [dlDiscrete]
  split_ifs <;> simp

/-- C9 counterexample: for a record whose identity has no cache entry and
which is occluded on first sight, the raw occlusion target is 0 but the
seeded smoothed occlusion is 1 — the code deliberately seeds occlusion as
fully visible rather than from the record's raw target. -/
theorem claim_C9_counterexample :
    exC9In.d.isOccluded = true ∧
    occlusionTargetOf exC9In.d.isOccluded = 0 ∧
    (drawLabelEntry exC9In none).occlusionSmooth = 1 ∧
    (1 : ℝ) ≠ 0 := by
  refine ⟨rfl, by norm_num [occlusionTargetOf, exC9In, exC9Record], ?_, by norm_num⟩
  have hname : ¬(("" : String) = "Bandit") := by decide
  simp [drawLabelEntry, dlDiscrete, dlContinuous, exC9In, exC9Record, hname]

/-- C9 (amended): for a record whose identity has no cache entry and whose
projection succeeds at `(sx, sy)`, the update creates an entry, seeds its
smoothed alpha, scale and screen position directly from the record's raw
target values, fills all 8 history slots with the first observed screen
position, and seeds the smoothed occlusion always to 1.0 (fully visible)
regardless of the record's occluded flag; the reveal state starts at
incomplete/zero. -/
theorem claim_C9_first_sight_seeding (inp : DrawLabelIn) (sx sy sz : ℝ)
    (hproj : inp.projection = some (sx, sy, sz)) :
    (drawLabelEntry inp none).initialized = true
  ∧ (drawLabelEntry inp none).alphaSmooth = alphaTargetOf inp.s inp.d.distToPlayer
  ∧ (drawLabelEntry inp none).textSizeScale =
      textScaleTargetOf inp.s inp.d.distToPlayer inp.d.worldPos inp.cameraPos
  ∧ (drawLabelEntry inp none).smooth = (sx, sy)
  ∧ (drawLabelEntry inp none).posHistory = List.replicate kPositionHistorySize (sx, sy)
  ∧ (drawLabelEntry inp none).historyFilled = true
  ∧ (drawLabelEntry inp none).historyIndex = 0
  ∧ (drawLabelEntry inp none).occlusionSmooth = 1
  ∧ (drawLabelEntry inp none).typewriterTime = 0
  ∧ (drawLabelEntry inp none).typewriterComplete = false := by
  have hini : (dlDiscrete inp none).initialized = false := dlDiscrete_none_initialized inp
  unfold drawLabelEntry
  rw [hproj]
  simp [dlContinuous, hini]

theorem claim_C9_first_sight_seeding_witness :
    (drawLabelEntry exC9bIn none).alphaSmooth =
      alphaTargetOf exC9bIn.s exC9bIn.d.distToPlayer ∧
    (drawLabelEntry exC9bIn none).posHistory =
      List.replicate kPositionHistorySize (5, 6) ∧
    (drawLabelEntry exC9bIn none).occlusionSmooth = 1 := by
  have h := claim_C9_first_sight_seeding exC9bIn 5 6 0.5 rfl
  exact ⟨h.2.1, h.2.2.2.2.1, h.2.2.2.2.2.2.2.1⟩

/-! ### Theorems: reveal reset on re-entry (C5) -/

/-- The post-projection smoothing of `DrawLabel` never changes
`typewriterComplete` for an already-initialized entry: the reveal state is
decided entirely by the pre-projection stage. -/
theorem dlContinuous_preserves_complete (inp : DrawLabelIn) (sx sy : ℝ) (e4 : ActorCache)
    (hinit : e4.initialized = true) :
    (dlContinuous inp sx sy e4).typewriterComplete = e4.typewriterComplete := by
  simp only [dlContinuous, hinit]
  simp [AddAndGetSmoothed, apply_ite ActorCache.typewriterComplete, apply_ite Prod.snd,
    ite_self]

/-- C5: concrete behavior of `DrawLabel` at the claim's scenario.  An entity
whose reveal animation is complete, last seen 31 frames ago (more than the
30-frame re-entry threshold), not occluded then and now, same name, is
processed again — and its reveal state is NOT reset: `typewriterComplete`
remains `true`, because line 955 stamps `lastSeenFrame = s_frame` before
line 970 computes `framesSinceLastSeen`, which is therefore always 0. -/
theorem claim_C5_reveal_reset_code_behavior :
    sub32 exC5In.frame exC5Entry.lastSeenFrame = 31 ∧
    exC5Entry.typewriterComplete = true ∧
    exC5Entry.wasOccluded = false ∧
    exC5In.d.isOccluded = false ∧
    exC5In.d.name = exC5Entry.cachedName ∧
    (drawLabelEntry exC5In (some exC5Entry)).typewriterComplete = true := by
  refine ⟨by norm_num [sub32, exC5In, exC5Entry], rfl, rfl, rfl, rfl, ?_⟩
  have hInit : (dlDiscrete exC5In (some exC5Entry)).initialized = true :=
    (dlDiscrete_some_fields exC5In exC5Entry).2.2.2.2.1.trans rfl
  have hC : (dlDiscrete exC5In (some exC5Entry)).typewriterComplete = true := by
    simp [dlDiscrete, exC5In, exC5Entry, sub32, kReentryThreshold]
  unfold drawLabelEntry
  rw [show exC5In.projection = some ((0 : ℝ), (0 : ℝ), (0.5 : ℝ)) from rfl]
  rw [dlContinuous_preserves_complete _ _ _ _ hInit, hC]

/-! ### Theorems: cache eviction (C4) -/

theorem pair_eq_of_nodup_keys {l : CacheMap} (hnd : (l.map Prod.fst).Nodup)
    {p q : Nat × ActorCache} (hp : p ∈ l) (hq : q ∈ l) (hk : p.1 = q.1) : p = q := by
  induction l with
  | nil => exact absurd hp (List.not_mem_nil p)
  | cons a rest ih =>
    rw [List.map_cons, List.nodup_cons] at hnd
    rcases List.mem_cons.1 hp with hp1 | hp1 <;> rcases List.mem_cons.1 hq with hq1 | hq1
    · rw [hp1, hq1]
    · exfalso
      apply hnd.1
      rw [← hp1, hk]
      exact List.mem_map_of_mem Prod.fst hq1
    · exfalso
      apply hnd.1
      rw [← hq1, ← hk]
      exact List.mem_map_of_mem Prod.fst hp1
    · exact ih hnd.2 hp1 hq1

theorem prune_key_of_some (frame : Nat) (snap : List ActorDrawData)
    (p r : Nat × ActorCache)
    (h : (if snap.any (fun d => d.formID == p.1) then
          some (p.1, { p.2 with lastSeenFrame := frame })
        else if kCacheGraceFrames < sub32 frame p.2.lastSeenFrame then none
        else some p) = some r) : r.1 = p.1 := by
  split_ifs at h with h1 h2
  · obtain rfl : (p.1, { p.2 with lastSeenFrame := frame }) = r := Option.some.inj h
    rfl
  · rw [Option.some.inj h]

/-- C4 counterexample: a presentation tick whose copied snapshot is empty
returns before the sweep, so an entry 96 frames stale (far beyond the
60-frame grace window) is still in the cache after the tick — the sweep
does not run after every presentation tick. -/
theorem claim_C4_counterexample :
    kCacheGraceFrames < sub32 ((exC4State.frame + 1) % 2 ^ 32) exC4Entry.lastSeenFrame ∧
    (7, exC4Entry) ∈ exC4State.cache ∧
    exC4Env.snapshot = [] ∧
    (drawTick exC4Env exC4State).cache = exC4State.cache := by
  refine ⟨by norm_num [sub32, kCacheGraceFrames, exC4State, exC4Entry],
    by simp [exC4State], rfl, ?_⟩
  simp [drawTick, exC4Env, exC4State]

/-- C4 (amended): the sweep `PruneCacheToSnapshot` removes exactly the cache
entries absent from the snapshot whose last-seen frame is more than the
60-frame grace window old — entries in the snapshot are retained with a
refreshed last-seen frame, entries within the window are retained
unchanged, and the sweep creates nothing; it runs at the end of every
presentation tick that reaches the drawing stage (no hot reload, overlay
allowed, no cooldown, renderer available, snapshot non-empty).  Besides
the sweep, the whole cache is also cleared on a settings hot-reload, and
ticks that return early (e.g. empty snapshot) skip the sweep. -/
theorem claim_C4_eviction_sweep (frame : Nat) (snap : List ActorDrawData)
    (cache : CacheMap) (hnd : (cache.map Prod.fst).Nodup) :
    (∀ p ∈ cache, snap.any (fun d => d.formID == p.1) = true →
        (p.1, { p.2 with lastSeenFrame := frame }) ∈ PruneCacheToSnapshot frame snap cache)
  ∧ (∀ p ∈ cache, snap.any (fun d => d.formID == p.1) = false →
        kCacheGraceFrames < sub32 frame p.2.lastSeenFrame →
        ∀ e, (p.1, e) ∉ PruneCacheToSnapshot frame snap cache)
  ∧ (∀ p ∈ cache, snap.any (fun d => d.formID == p.1) = false →
        sub32 frame p.2.lastSeenFrame ≤ kCacheGraceFrames →
        p ∈ PruneCacheToSnapshot frame snap cache)
  ∧ (∀ q ∈ PruneCacheToSnapshot frame snap cache, ∃ p ∈ cache, p.1 = q.1)
  ∧ (∀ (env : DrawEnv) (st : DrawState), env.reloadTriggered = false →
      env.canDraw = true → st.wasInInvalidState = false → st.postLoadCooldown = 0 →
      env.rendererAvailable = true → env.snapshot.isEmpty = false →
      drawTick env st = { st with
        frame := (st.frame + 1) % 2 ^ 32,
        cache := PruneCacheToSnapshot ((st.frame + 1) % 2 ^ 32) env.snapshot
          (drawLabels env.s ((st.frame + 1) % 2 ^ 32) env.dt env.cameraPos env.proj
            env.snapshot st.cache) }) := by
  refine ⟨?_, ?_, ?_, ?_, ?_⟩
  · intro p hp hin
    unfold PruneCacheToSnapshot
    exact List.mem_filterMap.2 ⟨p, hp, by rw [if_pos hin]⟩
  · intro p hp hin hstale e hmem
    unfold PruneCacheToSnapshot at hmem
    obtain ⟨q, hq, hfq⟩ := List.mem_filterMap.1 hmem
    have hk : p.1 = q.1 := prune_key_of_some frame snap q (p.1, e) hfq
    obtain rfl : q = p := pair_eq_of_nodup_keys hnd hq hp hk.symm
    rw [if_neg (by rw [hin]; exact Bool.false_ne_true), if_pos hstale] at hfq
    exact Option.noConfusion hfq
  · intro p hp hin hle
    unfold PruneCacheToSnapshot
    refine List.mem_filterMap.2 ⟨p, hp, ?_⟩
    rw [if_neg (by rw [hin]; exact Bool.false_ne_true), if_neg (not_lt.2 hle)]
  · intro q hq
    unfold PruneCacheToSnapshot at hq
    obtain ⟨p, hp, hfp⟩ := List.mem_filterMap.1 hq
    exact ⟨p, hp, (prune_key_of_some frame snap p q hfp).symm⟩
  · intro env st h1 h2 h3 h4 h5 h6
    simp [drawTick, h1, h2, h3, h4, h5, h6]

theorem claim_C4_eviction_sweep_witness :
    (7, { exC4Entry with lastSeenFrame := 70 }) ∈
      PruneCacheToSnapshot 70 [exC4Record] [(7, exC4Entry), (9, exC4Stale)] ∧
    ∀ e, (9, e) ∉ PruneCacheToSnapshot 70 [exC4Record] [(7, exC4Entry), (9, exC4Stale)] := by
  have hnd : ((([(7, exC4Entry), (9, exC4Stale)] : CacheMap)).map Prod.fst).Nodup := by
    simp
  have h := claim_C4_eviction_sweep 70 [exC4Record] [(7, exC4Entry), (9, exC4Stale)] hnd
  refine ⟨?_, ?_⟩
  · exact h.1 (7, exC4Entry) (by simp) (by simp [exC4Record])
  · exact h.2.1 (9, exC4Stale) (by simp) (by simp [exC4Record])
      (by norm_num [sub32, kCacheGraceFrames, exC4Stale])

end Whois
